import Mathlib

/-!
Verification development for a small credential-issuance service
(Rust/Actix-Web + SQLx + Argon2).  The handlers in
`src/handlers/user.rs`, the models in `src/models/user.rs` and the
bootstrap in `src/main.rs` are shallowly embedded below: the MySQL
store is modelled as an insertion-ordered list of rows with the
uniqueness constraint of the provisioned table, the Argon2 digest is
an explicit function parameter (its PHC encoding and verification are
modelled concretely), and each handler is a pure function from request
and store to an HTTP-level response.
-/

/-- HTTP status classes used by the handlers. -/
inductive Status where
  | ok
  | badRequest
  | unauthorized
  | notFound
  | conflict
  | internalServerError
deriving DecidableEq, Repr

/-- Numeric HTTP status codes. -/
def statusCode : Status → Nat
  | .ok => 200
  | .badRequest => 400
  | .unauthorized => 401
  | .notFound => 404
  | .conflict => 409
  | .internalServerError => 500

/-- JSON values, enough for the bodies the handlers build with serde_json. -/
inductive Json where
  | str : String → Json
  | obj : List (String × Json) → Json
  | arr : List Json → Json

/-- An HTTP response: status plus JSON body. -/
structure Response where
  status : Status
  body : Json

/-- HTTP methods of the routes registered in `main`. -/
inductive Method where
  | get
  | post
deriving DecidableEq, Repr

/-- The routes `main` registers on the Actix `App` (src/main.rs lines 34-40):
`/register` POST, `/users` GET, `/login` POST.  No other route is registered. -/
def routes : List (String × Method) :=
  [("/register", .post), ("/users", .get), ("/login", .post)]

/-- Columns of the `users` table as provisioned by the `CREATE TABLE IF NOT
EXISTS` statement in `main` (src/main.rs lines 20-29): id, name, email. -/
def createTableColumns : List String := ["id", "name", "email"]

/-- Columns targeted by the `INSERT INTO users (id, name, email, password)`
statement in `register_user` (src/handlers/user.rs line 49). -/
def registerInsertColumns : List String := ["id", "name", "email", "password"]

/-- Registration request body (src/models/user.rs, `RegisterRequest`). -/
structure RegisterRequest where
  name : String
  email : String
  password : String
deriving DecidableEq, Repr

/-- Login request body (src/models/user.rs, `LoginRequest`). -/
structure LoginRequest where
  email : String
  password : String
deriving DecidableEq, Repr

/-- Outward-facing user view (src/models/user.rs, `User`): only id, name,
email; no password field. -/
structure User where
  id : String
  name : String
  email : String
deriving DecidableEq, Repr

/-- A stored row of the `users` table as the INSERT statement expects it:
id, name, email and the encoded password hash bound to the `password`
column. -/
structure Row where
  id : String
  name : String
  email : String
  password : String
deriving DecidableEq, Repr

/-- The store: an insertion-ordered log of rows (each successful insert
appends). -/
abbrev Store := List Row

/-- Database errors the handlers distinguish (sqlx): `rowNotFound` from
`fetch_one` on an empty result, `uniqueViolation` from the UNIQUE
constraint on email / PRIMARY KEY on id, and any other failure. -/
inductive DbError where
  | rowNotFound
  | uniqueViolation
  | other
deriving DecidableEq, Repr

/-- Insert a row, enforcing the table constraints (PRIMARY KEY on id,
UNIQUE on email).  On success the row is appended, preserving insertion
order. -/
def insertUser (db : Store) (r : Row) : Except DbError Store :=
  if db.any (fun row => row.id == r.id || row.email == r.email) then
    .error .uniqueViolation
  else
    .ok (db ++ [r])

/-- `fetch_one` for `SELECT ... FROM users WHERE email = ?`: the first row
with the given email, or `RowNotFound`. -/
def fetchOneByEmail (db : Store) (email : String) : Except DbError Row :=
  match db.find? (fun row => row.email == email) with
  | some r => .ok r
  | none => .error .rowNotFound

/-- `fetch_one` for `SELECT ... FROM users WHERE id = ?`. -/
def fetchOneById (db : Store) (i : String) : Except DbError Row :=
  match db.find? (fun row => row.id == i) with
  | some r => .ok r
  | none => .error .rowNotFound

/-- `fetch_all` for `SELECT id, name, email FROM users`: all rows, in stored
(insertion) order.  The query has no ORDER BY; the store collaborator is
modelled as returning its rows in insertion order. -/
def fetchAll (db : Store) : Except DbError (List Row) := .ok db

/-- Split a list of characters on every occurrence of `sep`; never returns
an empty list of pieces.  Used to model both the PHC-string format parser
and the dot-separated domain labels of email validation. -/
def splitOnChar (sep : Char) : List Char → List (List Char)
  | [] => [[]]
  | c :: cs =>
    let r := splitOnChar sep cs
    if c = sep then [] :: r
    else
      match r with
      | [] => [[c]]
      | p :: ps => (c :: p) :: ps

/-- Characters the validator crate allows in the local (user) part of an
email address, besides ASCII letters and digits: the RFC 5322 atom
specials.  Apostrophe, backtick and braces are written via their code
points. -/
def emailUserSpecials : List Char :=
  ['!', '#', '$', '%', '&', '*', '+', '/', '=', '?', '^', '_', '~', '.', '-',
   Char.ofNat 39, Char.ofNat 96, Char.ofNat 123, Char.ofNat 124, Char.ofNat 125]

/-- Whether a character may appear in the local part of an email address. -/
def isEmailUserChar (c : Char) : Bool :=
  c.isAlpha || c.isDigit || emailUserSpecials.contains c

/-- Whether a chunk of characters is a valid DNS label as the validator
crate checks it: nonempty, at most 63 characters, alphanumeric at both
ends, alphanumeric or hyphen inside. -/
def validLabel (l : List Char) : Bool :=
  !l.isEmpty && l.length ≤ 63 &&
  (l.head?.all Char.isAlphanum) && (l.getLast?.all Char.isAlphanum) &&
  l.all (fun c => c.isAlphanum || c == '-')

/-- Domain part check of the validator crate: one or more dot-separated
valid DNS labels.  (The crate additionally accepts bracketed literal IP
addresses and, as a fallback, internationalised domain names; the
handlers and the spec exercise only the domain-name path modelled
here.) -/
def validDomainPart (domain : List Char) : Bool :=
  (splitOnChar '.' domain).all validLabel

/-- Break a character list at the first occurrence of `sep` (which is
dropped); if `sep` does not occur the whole list is the first component. -/
def breakAtFirst (sep : Char) : List Char → List Char × List Char
  | [] => ([], [])
  | c :: cs =>
    if c = sep then ([], cs)
    else
      let r := breakAtFirst sep cs
      (c :: r.1, r.2)

/-- Email syntax check as the validator crate performs it for
`#[validate(email)]`: nonempty, contains `@`, split at the LAST `@` into
user and domain part, user part at most 64 and domain part at most 255
characters, user part nonempty and built from the allowed atom
characters, domain part a dot-separated sequence of valid DNS labels. -/
def validateEmail (s : String) : Bool :=
  let cs := s.data
  if cs.isEmpty || !cs.contains '@' then false
  else
    let r := breakAtFirst '@' cs.reverse
    let domain := r.1.reverse
    let user := r.2.reverse
    if user.length > 64 || domain.length > 255 then false
    else if user.isEmpty || !user.all isEmailUserChar then false
    else validDomainPart domain

/-- Field-level validation of `RegisterRequest` as derived by
`#[derive(Validate)]` (src/models/user.rs lines 5-15): name length at
least 1, email well-formed, password length at least 8; errors for ALL
failing fields are collected, each with its field name and the message
from the attribute. -/
def validate (r : RegisterRequest) : List (String × String) :=
  (if r.name.length < 1 then [("name", "Name is required")] else []) ++
  (if !validateEmail r.email then [("email", "Invalid email address")] else []) ++
  (if r.password.length < 8 then
    [("password", "Password must be at least 8 characters long")] else [])

/-- A decoded PHC-format password hash as the password-hash crate
represents it: algorithm identifier, version, parameter string, salt and
digest (the salt and digest are base64 text and contain no `$`). -/
structure PasswordHashRec where
  alg : String
  version : String
  params : String
  salt : String
  digest : String
deriving DecidableEq, Repr

/-- `Argon2::default().hash_password(password, salt)`: derives the digest
from the parameter string, the salt and the password.  The Argon2 key
derivation itself is the function argument `f`; the record embeds the
algorithm identifier, version, parameters and salt alongside the
digest, exactly what the PHC string later needs for verification. -/
def hashPassword (f : String → String → String → String)
    (alg version params password salt : String) : PasswordHashRec :=
  { alg := alg, version := version, params := params, salt := salt,
    digest := f params salt password }

/-- PHC string encoding (`.to_string()` on the hash):
`$alg$version$params$salt$digest`. -/
def phcString (h : PasswordHashRec) : String :=
  "$" ++ h.alg ++ "$" ++ h.version ++ "$" ++ h.params ++ "$" ++ h.salt ++ "$" ++ h.digest

/-- `PasswordHash::new`: parse a PHC string back into its five sections;
malformed input (wrong section count, empty algorithm, salt or digest)
is rejected with `none`. -/
def PasswordHash.new (s : String) : Option PasswordHashRec :=
  match splitOnChar '$' s.data with
  | [[], alg, version, params, salt, digest] =>
    if alg.isEmpty || salt.isEmpty || digest.isEmpty then none
    else some { alg := String.mk alg, version := String.mk version,
                params := String.mk params, salt := String.mk salt,
                digest := String.mk digest }
  | _ => none

/-- `Argon2::default().verify_password(password, parsed_hash)`: re-derive
the digest with the parameters and salt embedded in the hash and compare
with the stored digest. -/
def verifyPassword (f : String → String → String → String)
    (password : String) (h : PasswordHashRec) : Bool :=
  f h.params h.salt password == h.digest

/-- Algorithm identifier of `Argon2::default()`. -/
def argon2Alg : String := "argon2id"

/-- Version section of the PHC string produced by `Argon2::default()`. -/
def argon2Version : String := "v=19"

/-- Parameter section of the PHC string produced by `Argon2::default()`
(default cost parameters). -/
def argon2Params : String := "m=19456,t=2,p=1"

/-- Helper: the JSON body `{"message": m}`. -/
def msgJson (m : String) : Json := .obj [("message", .str m)]

/-- Helper: the JSON body `{"error": e}`. -/
def errJson (e : String) : Json := .obj [("error", .str e)]

/-- Serialisation of the collected validation errors: one entry per
failing field, keyed by field name. -/
def validationJson (errs : List (String × String)) : Json :=
  .obj (errs.map (fun p => (p.1, Json.str p.2)))

/-- Observable side effects of a handler run, in order. -/
inductive Effect where
  | hashedPassword
  | dbInsert
deriving DecidableEq, Repr

/-- The `register_user` handler (src/handlers/user.rs lines 24-65):
validate; on failure return 400 with the serialised errors (no hashing,
no insert).  Otherwise hash the password with a fresh salt (`salt`) under
the default Argon2 parameters, build the row with a fresh UUID
(`userId`) and insert it; any insert error — including the uniqueness
violation — is answered with a generic 500 `Something went wrong`. -/
def register_user (f : String → String → String → String)
    (user : RegisterRequest) (userId : String) (salt : String) (db : Store) :
    Response × Store × List Effect :=
  match validate user with
  | _ :: _ => ({ status := .badRequest, body := validationJson (validate user) }, db, [])
  | [] =>
    let hashed := phcString (hashPassword f argon2Alg argon2Version argon2Params user.password salt)
    match insertUser db { id := userId, name := user.name, email := user.email, password := hashed } with
    | .ok db2 =>
      ({ status := .ok, body := msgJson "User registered successfully" },
       db2, [.hashedPassword, .dbInsert])
    | .error _ =>
      ({ status := .internalServerError, body := errJson "Something went wrong" },
       db, [.hashedPassword, .dbInsert])

/-- Outcome of the login handler: a response, or a process panic (the
`unwrap` on `PasswordHash::new`). -/
inductive LoginResult where
  | response : Response → LoginResult
  | panicked : LoginResult

/-- Status of a login outcome, when it is a response. -/
def LoginResult.status : LoginResult → Option Status
  | .response r => some r.status
  | .panicked => none

/-- The `login_user` handler (src/handlers/user.rs lines 68-104): fetch
the row by email; any fetch error — including row-not-found for an
unregistered email — is answered with a generic 500 `Login failed`.  On
a fetched row, `PasswordHash::new(&user.password).unwrap()` panics if
the stored hash does not parse; otherwise the supplied password is
verified against the parsed hash: 200 on success, 401 `Invalid
password` on mismatch. -/
def login_user (f : String → String → String → String)
    (user : LoginRequest) (db : Store) : LoginResult :=
  match fetchOneByEmail db user.email with
  | .ok row =>
    match PasswordHash.new row.password with
    | none => .panicked
    | some parsed =>
      if verifyPassword f user.password parsed then
        .response { status := .ok, body := msgJson "Login successful" }
      else
        .response { status := .unauthorized, body := errJson "Invalid password" }
  | .error _ =>
    .response { status := .internalServerError, body := errJson "Login failed" }

/-- Projection of a stored row to the outward-facing `User` view
(`SELECT id, name, email`): the password column is not selected. -/
def rowView (r : Row) : User :=
  { id := r.id, name := r.name, email := r.email }

/-- serde serialisation of the `User` view: only id, name, email. -/
def userJson (u : User) : Json :=
  .obj [("id", .str u.id), ("name", .str u.name), ("email", .str u.email)]

/-- The `get_users` handler (src/handlers/user.rs lines 107-121): fetch
all rows and return their non-secret views as a JSON array, in the
order the store returns them; a fetch error is answered with 500. -/
def get_users (db : Store) : Response :=
  match fetchAll db with
  | .ok rows => { status := .ok, body := .arr (rows.map (fun r => userJson (rowView r))) }
  | .error _ => { status := .internalServerError, body := errJson "Could not fetch users" }

/-- The `get_user_by_id` handler (src/handlers/user.rs lines 123-144):
fetch one row by id; found rows are returned as the non-secret view,
`RowNotFound` is answered with 404 `User not found`, any other error
with 500. -/
def get_user_by_id (db : Store) (userId : String) : Response :=
  match fetchOneById db userId with
  | .ok row => { status := .ok, body := userJson (rowView row) }
  | .error .rowNotFound => { status := .notFound, body := errJson "User not found" }
  | .error _ => { status := .internalServerError, body := errJson "Could not fetch user" }

mutual

/-- Whether a JSON value contains a field named `k` anywhere. -/
def jsonHasKey (k : String) : Json → Bool
  | .str _ => false
  | .obj l => fieldsHaveKey k l
  | .arr l => elemsHaveKey k l

/-- Whether an object field list contains a field named `k` anywhere. -/
def fieldsHaveKey (k : String) : List (String × Json) → Bool
  | [] => false
  | (k2, v) :: rest => k2 == k || jsonHasKey k v || fieldsHaveKey k rest

/-- Whether an array element list contains a field named `k` anywhere. -/
def elemsHaveKey (k : String) : List Json → Bool
  | [] => false
  | v :: rest => jsonHasKey k v || elemsHaveKey k rest

end

/-- Stand-in for the Argon2 key-derivation function in closed instances of
the parametric theorems: it returns the password, which is enough to
exercise every branch (matching and non-matching verification). -/
def demoDigest : String → String → String → String := fun _ _ pw => pw

/-- The valid registration request of the spec examples. -/
def demoReq : RegisterRequest :=
  { name := "Ana", email := "ana@example.com", password := "longenough1" }

/-- The store after registering `demoReq` into the empty store. -/
def demoStore : Store := (register_user demoDigest demoReq "id1" "saltA" []).2.1

/-- `splitOnChar` on a separator-free list yields that single piece. -/
theorem splitOnChar_no_sep (sep : Char) (xs : List Char) (h : sep ∉ xs) :
    splitOnChar sep xs = [xs] := by
  induction xs with
  | nil => rfl
  | cons c cs ih =>
    simp only [List.mem_cons, not_or] at h
    simp only [splitOnChar]
    rw [if_neg (fun hc => h.1 hc.symm)]
    rw [ih h.2]

/-- `splitOnChar` splits off a separator-free prefix before a separator. -/
theorem splitOnChar_append (sep : Char) (xs rest : List Char) (h : sep ∉ xs) :
    splitOnChar sep (xs ++ sep :: rest) = xs :: splitOnChar sep rest := by
  induction xs with
  | nil => simp [splitOnChar]
  | cons c cs ih =>
    simp only [List.mem_cons, not_or] at h
    simp only [List.cons_append, splitOnChar, List.append_eq]
    rw [if_neg (fun hc => h.1 hc.symm)]
    rw [ih h.2]

/-- Character data of a PHC string: the five sections joined by `$`. -/
theorem phcString_data (h : PasswordHashRec) :
    (phcString h).data =
      '$' :: (h.alg.data ++ '$' :: (h.version.data ++ '$' :: (h.params.data ++
        '$' :: (h.salt.data ++ '$' :: h.digest.data)))) := by
  simp [phcString, String.data_append]

/-- A nonempty string has non-vacuous character data. -/
theorem nonempty_data_not_isEmpty (s : String) (h : s ≠ "") : s.data.isEmpty = false := by
  cases s with
  | mk d =>
    cases d with
    | nil => simp at h
    | cons c cs => simp [List.isEmpty]

/-- Parsing is a left inverse of PHC encoding: a record whose sections are
`$`-free, with nonempty algorithm, salt and digest, is recovered exactly
from its PHC string. -/
theorem parse_phcString (h : PasswordHashRec)
    (h1 : '$' ∉ h.alg.data) (h2 : '$' ∉ h.version.data)
    (h3 : '$' ∉ h.params.data) (h4 : '$' ∉ h.salt.data)
    (h5 : '$' ∉ h.digest.data)
    (h6 : h.alg ≠ "") (h7 : h.salt ≠ "") (h8 : h.digest ≠ "") :
    PasswordHash.new (phcString h) = some h := by
  unfold PasswordHash.new
  rw [phcString_data]
  rw [show splitOnChar '$' ('$' :: (h.alg.data ++ '$' :: (h.version.data ++ '$' :: (h.params.data ++
        '$' :: (h.salt.data ++ '$' :: h.digest.data))))) =
      [] :: splitOnChar '$' (h.alg.data ++ '$' :: (h.version.data ++ '$' :: (h.params.data ++
        '$' :: (h.salt.data ++ '$' :: h.digest.data)))) from by simp [splitOnChar]]
  rw [splitOnChar_append _ _ _ h1, splitOnChar_append _ _ _ h2,
      splitOnChar_append _ _ _ h3, splitOnChar_append _ _ _ h4,
      splitOnChar_no_sep _ _ h5]
  simp only [nonempty_data_not_isEmpty _ h6, nonempty_data_not_isEmpty _ h7,
    nonempty_data_not_isEmpty _ h8]
  rfl

/-- The validator accepts exactly when all three field rules hold. -/
theorem validate_eq_nil (r : RegisterRequest) :
    validate r = [] ↔
      1 ≤ r.name.length ∧ validateEmail r.email = true ∧ 8 ≤ r.password.length := by
  unfold validate
  split_ifs with h1 h2 h3 <;> simp_all
  omega

/-- A `User` view serialises to an object without field `k` whenever `k`
is none of id, name, email. -/
theorem userJson_no_password (k : String) (u : User)
    (h1 : k ≠ "id") (h2 : k ≠ "name") (h3 : k ≠ "email") :
    jsonHasKey k (userJson u) = false := by
  simp [userJson, jsonHasKey, fieldsHaveKey, beq_eq_false_iff_ne]
  exact ⟨fun h => h1 h.symm, fun h => h2 h.symm, fun h => h3 h.symm⟩

/-- An error body has only the field `error`. -/
theorem errJson_no_password (k : String) (e : String) (h : k ≠ "error") :
    jsonHasKey k (errJson e) = false := by
  simp [errJson, jsonHasKey, fieldsHaveKey, beq_eq_false_iff_ne]
  exact fun hh => h hh.symm

/-- A list of serialised user views contains no field `k` whenever `k` is
none of id, name, email. -/
theorem mapped_views_no_key (k : String) (db : Store)
    (h1 : k ≠ "id") (h2 : k ≠ "name") (h3 : k ≠ "email") :
    elemsHaveKey k (db.map (fun r => userJson (rowView r))) = false := by
  induction db with
  | nil => rfl
  | cons r rest ih =>
    simp [elemsHaveKey, userJson_no_password k _ h1 h2 h3, ih]

/-- The parsed record of the demonstration registration. -/
def demoHashRec : PasswordHashRec :=
  hashPassword demoDigest argon2Alg argon2Version argon2Params "longenough1" "saltA"

/-- The row the demonstration registration stores. -/
def demoRow : Row :=
  { id := "id1", name := "Ana", email := "ana@example.com", password := phcString demoHashRec }

/-- A stored row whose `password` column does not parse as a PHC hash. -/
def malformedRow : Row :=
  { id := "id9", name := "Mallory", email := "mallory@example.com", password := "corrupted" }

/-- C1 counterexample: registering the same valid request twice yields one
success and then a generic 500 internal-server-error response, not the
conflict status the claim requires. -/
theorem register_conflict_counterexample :
    (let r1 := register_user demoDigest demoReq "id1" "saltA" []
     let r2 := register_user demoDigest demoReq "id2" "saltB" r1.2.1
     r1.1.status = Status.ok ∧ r2.1.status = Status.internalServerError ∧
       statusCode r2.1.status = 500 ∧ r2.1.status ≠ Status.conflict) := by
  decide

/-- C1 (amended): for a valid registration whose email is already stored,
the uniqueness violation raised by the store is answered with the generic
internal-server-error response (`Something went wrong`), not a distinct
conflict status, and the store is left unchanged. -/
theorem register_duplicate_email_is_generic_failure
    (f : String → String → String → String) (user : RegisterRequest)
    (uid salt : String) (db : Store)
    (hval : validate user = [])
    (hdup : db.any (fun r => r.email == user.email) = true) :
    (register_user f user uid salt db).1.status = Status.internalServerError ∧
    (register_user f user uid salt db).1.status ≠ Status.conflict ∧
    (register_user f user uid salt db).2.1 = db := by
  have hins : insertUser db ⟨uid, user.name, user.email,
      phcString (hashPassword f argon2Alg argon2Version argon2Params user.password salt)⟩ =
      .error .uniqueViolation := by
    unfold insertUser
    rw [if_pos]
    rw [List.any_eq_true] at hdup ⊢
    obtain ⟨r, hr, he⟩ := hdup
    exact ⟨r, hr, by simp_all⟩
  refine ⟨?_, ?_, ?_⟩ <;> simp [register_user, hval, hins]

/-- C1 witness: the amended theorem applied at the demonstration store
that already holds `ana@example.com`. -/
theorem register_duplicate_email_witness :
    (register_user demoDigest demoReq "id2" "saltB" demoStore).1.status =
      Status.internalServerError ∧
    (register_user demoDigest demoReq "id2" "saltB" demoStore).1.status ≠ Status.conflict ∧
    (register_user demoDigest demoReq "id2" "saltB" demoStore).2.1 = demoStore :=
  register_duplicate_email_is_generic_failure demoDigest demoReq "id2" "saltB" demoStore
    (by decide) (by decide)

/-- C2 counterexample: against a store holding only `ana@example.com`, a
login with an unknown email is answered 500 `Login failed` while a login
with a registered email and a wrong password is answered 401 `Invalid
password`: the two failure outcomes are outwardly distinguishable. -/
theorem login_distinguishable_counterexample :
    (login_user demoDigest { email := "bob@example.com", password := "anything" }
      demoStore).status = some Status.internalServerError ∧
    (login_user demoDigest { email := "ana@example.com", password := "wrongpassword" }
      demoStore).status = some Status.unauthorized ∧
    some Status.internalServerError ≠ some Status.unauthorized := by
  decide

/-- C2 (amended): the two login failure causes are mapped to different
outward results: a lookup failure (including not-found) is answered with
the generic 500 `Login failed` response, while a stored user whose hash
does not verify against the supplied password is answered with 401
`Invalid password`. -/
theorem login_failure_paths (f : String → String → String → String)
    (user : LoginRequest) (db : Store) :
    (∀ e, fetchOneByEmail db user.email = .error e →
      login_user f user db =
        .response { status := Status.internalServerError, body := errJson "Login failed" }) ∧
    (∀ row parsed, fetchOneByEmail db user.email = .ok row →
      PasswordHash.new row.password = some parsed →
      verifyPassword f user.password parsed = false →
      login_user f user db =
        .response { status := Status.unauthorized, body := errJson "Invalid password" }) := by
  constructor
  · intro e he
    simp [login_user, he]
  · intro row parsed hrow hparse hver
    simp [login_user, hrow, hparse, hver]

/-- C2 witness: both branches of the amended theorem at the demonstration
store. -/
theorem login_failure_paths_witness :
    login_user demoDigest { email := "bob@example.com", password := "anything" } demoStore =
      .response { status := Status.internalServerError, body := errJson "Login failed" } ∧
    login_user demoDigest { email := "ana@example.com", password := "wrongpassword" } demoStore =
      .response { status := Status.unauthorized, body := errJson "Invalid password" } :=
  ⟨(login_failure_paths demoDigest _ demoStore).1 .rowNotFound rfl,
   (login_failure_paths demoDigest _ demoStore).2 demoRow demoHashRec rfl rfl rfl⟩

/-- C3: the `INSERT INTO users (id, name, email, password)` of the
register handler targets a `password` column that the `CREATE TABLE`
statement of `main` never provisions, so the provisioned schema does not
admit the row the register operation inserts. -/
theorem register_insert_not_admitted_by_schema :
    registerInsertColumns.all (fun c => createTableColumns.contains c) = false ∧
    "password" ∈ registerInsertColumns ∧ "password" ∉ createTableColumns := by
  decide

/-- C4: validation accepts exactly when name length is at least 1, the
email is syntactically valid and the password length is at least 8; any
invalid request is answered with the 400 client-error status; the three
spec examples are each rejected with their field-specific messages, all
reported together, and the valid example is accepted. -/
theorem validation_rules_and_examples :
    (∀ r : RegisterRequest, validate r = [] ↔
      1 ≤ r.name.length ∧ validateEmail r.email = true ∧ 8 ≤ r.password.length) ∧
    (∀ (f : String → String → String → String) (user : RegisterRequest)
      (uid salt : String) (db : Store), validate user ≠ [] →
      (register_user f user uid salt db).1.status = Status.badRequest ∧
      statusCode (register_user f user uid salt db).1.status = 400) ∧
    validate { name := "", email := "not-an-email", password := "short1" } =
      [("name", "Name is required"), ("email", "Invalid email address"),
       ("password", "Password must be at least 8 characters long")] ∧
    validate demoReq = [] := by
  refine ⟨validate_eq_nil, ?_, by decide, by decide⟩
  intro f user uid salt db h
  cases hv : validate user with
  | nil => exact absurd hv h
  | cons a l => constructor <;> simp [register_user, hv, statusCode]

/-- C4 witness: the universal 400 clause applied to the invalid spec
example. -/
theorem validation_rules_witness :
    (register_user demoDigest { name := "", email := "not-an-email", password := "short1" }
      "id1" "saltA" []).1.status = Status.badRequest :=
  (validation_rules_and_examples.2.1 demoDigest
    { name := "", email := "not-an-email", password := "short1" } "id1" "saltA" []
    (by decide)).1

/-- C5: whatever digest function Argon2 computes, hashing the same
password under two distinct salts yields distinct PHC-encoded strings
(the salt is embedded in the encoding), while verification re-derives
the digest from the embedded parameters and salt and therefore always
accepts the plaintext the hash was produced from. -/
theorem hash_distinct_verify_deterministic
    (f : String → String → String → String) (password s1 s2 : String)
    (hne : s1 ≠ s2)
    (hs1 : '$' ∉ s1.data) (hs2 : '$' ∉ s2.data)
    (hs1e : s1 ≠ "") (hs2e : s2 ≠ "")
    (hd1 : '$' ∉ (f argon2Params s1 password).data)
    (hd2 : '$' ∉ (f argon2Params s2 password).data)
    (hd1e : f argon2Params s1 password ≠ "") (hd2e : f argon2Params s2 password ≠ "") :
    phcString (hashPassword f argon2Alg argon2Version argon2Params password s1) ≠
      phcString (hashPassword f argon2Alg argon2Version argon2Params password s2) ∧
    ∀ salt, verifyPassword f password
        (hashPassword f argon2Alg argon2Version argon2Params password salt) = true := by
  constructor
  · intro heq
    have p1 := parse_phcString
      (hashPassword f argon2Alg argon2Version argon2Params password s1)
      (show Char.ofNat 36 ∉ argon2Alg.data by decide)
      (show Char.ofNat 36 ∉ argon2Version.data by decide)
      (show Char.ofNat 36 ∉ argon2Params.data by decide)
      hs1 hd1 (show argon2Alg ≠ "" by decide) hs1e hd1e
    have p2 := parse_phcString
      (hashPassword f argon2Alg argon2Version argon2Params password s2)
      (show Char.ofNat 36 ∉ argon2Alg.data by decide)
      (show Char.ofNat 36 ∉ argon2Version.data by decide)
      (show Char.ofNat 36 ∉ argon2Params.data by decide)
      hs2 hd2 (show argon2Alg ≠ "" by decide) hs2e hd2e
    rw [heq, p2] at p1
    exact hne (congrArg PasswordHashRec.salt (Option.some.inj p1.symm))
  · intro salt
    simp [verifyPassword, hashPassword]

/-- C5 witness: distinct salts give distinct encodings and the round trip
verifies, at the demonstration digest function and password. -/
theorem hash_distinct_verify_witness :
    phcString (hashPassword demoDigest argon2Alg argon2Version argon2Params
        "longenough1" "saltA") ≠
      phcString (hashPassword demoDigest argon2Alg argon2Version argon2Params
        "longenough1" "saltB") ∧
    verifyPassword demoDigest "longenough1"
      (hashPassword demoDigest argon2Alg argon2Version argon2Params
        "longenough1" "saltA") = true :=
  ⟨(hash_distinct_verify_deterministic demoDigest "longenough1" "saltA" "saltB"
      (by decide) (by decide) (by decide) (by decide) (by decide)
      (by decide) (by decide) (by decide) (by decide)).1,
   (hash_distinct_verify_deterministic demoDigest "longenough1" "saltA" "saltB"
      (by decide) (by decide) (by decide) (by decide) (by decide)
      (by decide) (by decide) (by decide) (by decide)).2 "saltA"⟩

/-- C6: no body returned by the list-users or get-user-by-id handler ever
contains a `password` or `password_hash` field: the views carry only id,
name and email. -/
theorem read_views_omit_password_hash (db : Store) (userId : String) :
    jsonHasKey "password" (get_users db).body = false ∧
    jsonHasKey "password_hash" (get_users db).body = false ∧
    jsonHasKey "password" (get_user_by_id db userId).body = false ∧
    jsonHasKey "password_hash" (get_user_by_id db userId).body = false := by
  have hu : ∀ k, k ≠ "id" → k ≠ "name" → k ≠ "email" →
      jsonHasKey k (get_users db).body = false := by
    intro k h1 h2 h3
    simp [get_users, fetchAll, jsonHasKey, mapped_views_no_key k db h1 h2 h3]
  have hb : ∀ k, k ≠ "id" → k ≠ "name" → k ≠ "email" → k ≠ "error" →
      jsonHasKey k (get_user_by_id db userId).body = false := by
    intro k h1 h2 h3 h4
    unfold get_user_by_id
    cases hf : fetchOneById db userId with
    | ok row => simp [userJson_no_password k _ h1 h2 h3]
    | error e => cases e <;> simp [errJson_no_password k _ h4]
  exact ⟨hu _ (by decide) (by decide) (by decide),
    hu _ (by decide) (by decide) (by decide),
    hb _ (by decide) (by decide) (by decide) (by decide),
    hb _ (by decide) (by decide) (by decide) (by decide)⟩

/-- C7: when the fetched row's stored hash does not parse as a PHC string,
the login handler's `unwrap` on `PasswordHash::new` panics instead of
returning a structured error response. -/
theorem login_panics_on_malformed_stored_hash
    (f : String → String → String → String) (user : LoginRequest)
    (db : Store) (row : Row)
    (hfetch : fetchOneByEmail db user.email = .ok row)
    (hparse : PasswordHash.new row.password = none) :
    login_user f user db = LoginResult.panicked := by
  simp [login_user, hfetch, hparse]

/-- C7 witness: a store holding a row with an unparseable `password`
column makes the login handler panic. -/
theorem login_panics_witness :
    login_user demoDigest { email := "mallory@example.com", password := "whatever" }
      [malformedRow] = LoginResult.panicked :=
  login_panics_on_malformed_stored_hash demoDigest
    { email := "mallory@example.com", password := "whatever" } [malformedRow]
    malformedRow rfl rfl

/-- C8 counterexample: `main` registers no `GET /users/\x7bid\x7d` route,
so the get-user-by-id handler is not exposed over HTTP. -/
theorem get_user_by_id_route_not_registered :
    ("/users/\x7bid\x7d", Method.get) ∉ routes := by
  decide

/-- C8 (amended): the `get_user_by_id` handler — defined but not
registered on any route by `main` — answers every id absent from the
store with the distinct 404 not-found response, never with a server
error. -/
theorem get_user_by_id_missing_is_not_found (db : Store) (userId : String)
    (h : ∀ r ∈ db, r.id ≠ userId) :
    get_user_by_id db userId =
      { status := Status.notFound, body := errJson "User not found" } ∧
    (get_user_by_id db userId).status ≠ Status.internalServerError ∧
    statusCode (get_user_by_id db userId).status = 404 := by
  have hnone : db.find? (fun row => row.id == userId) = none :=
    List.find?_eq_none.mpr (fun r hr => by simp [h r hr])
  refine ⟨?_, ?_, ?_⟩ <;> simp [get_user_by_id, fetchOneById, hnone, statusCode]

/-- C8 witness: the amended theorem at a store not holding id `id1`. -/
theorem get_user_by_id_missing_witness :
    get_user_by_id [malformedRow] "id1" =
      { status := Status.notFound, body := errJson "User not found" } ∧
    (get_user_by_id [malformedRow] "id1").status ≠ Status.internalServerError ∧
    statusCode (get_user_by_id [malformedRow] "id1").status = 404 :=
  get_user_by_id_missing_is_not_found [malformedRow] "id1" (by decide)

/-- C9: the list-users handler returns exactly the stored rows' non-secret
views, in store order, and every successful insert appends its row, so
the store order is insertion order. -/
theorem get_users_preserves_insertion_order :
    (∀ db : Store, get_users db =
      { status := Status.ok, body := .arr (db.map (fun r => userJson (rowView r))) }) ∧
    (∀ (db : Store) (r : Row) (db2 : Store), insertUser db r = .ok db2 → db2 = db ++ [r]) := by
  constructor
  · intro db
    rfl
  · intro db r db2 h
    unfold insertUser at h
    split at h
    · simp at h
    · simp at h
      exact h.symm

/-- C9 witness: inserting into the empty store appends. -/
theorem get_users_order_witness :
    ([malformedRow] : Store) = [] ++ [malformedRow] :=
  get_users_preserves_insertion_order.2 [] malformedRow [malformedRow] rfl

/-- C10: a registration request that fails validation is answered 400
with the per-field errors, with the store unchanged and no effect
performed: no hashing and no insert attempt. -/
theorem register_invalid_input_no_effects
    (f : String → String → String → String) (user : RegisterRequest)
    (uid salt : String) (db : Store) (h : validate user ≠ []) :
    register_user f user uid salt db =
      ({ status := Status.badRequest, body := validationJson (validate user) },
       db, ([] : List Effect)) := by
  cases hv : validate user with
  | nil => exact absurd hv h
  | cons a l => simp [register_user, hv]

/-- C10 witness: the invalid spec example leaves the empty store unchanged
with no effects. -/
theorem register_invalid_no_effects_witness :
    register_user demoDigest { name := "", email := "not-an-email", password := "short1" }
      "id1" "saltA" [] =
      ({ status := Status.badRequest,
         body := validationJson (validate
           { name := "", email := "not-an-email", password := "short1" }) },
       ([] : Store), ([] : List Effect)) :=
  register_invalid_input_no_effects demoDigest
    { name := "", email := "not-an-email", password := "short1" } "id1" "saltA" []
    (by decide)
